import Mathlib

/-!
Verification of the single-token command-line argument classifier and
value-coercion engine (bevry/argument, src/source/index.ts).

Strings are embedded as `List Char` (JavaScript strings are sequences of
characters; none of the claims depend on UTF-16 encoding details).
A classified token is the `Argument` structure; classification is the
`classify` function (the TypeScript `Argument` constructor).  Fallback
resolution and the typed coercions return `Except ArgumentError _`,
mirroring the exception-based control flow of the source.

A TypeScript optional slot of type `T | null` has three states:
absent (`undefined`), explicitly `null`, and a value.  The `Slot` type
keeps all three apart so that the `== null` checks of the source (which
conflate `undefined` and `null`) can be reasoned about faithfully.
-/

instance {e a : Type} [DecidableEq e] [DecidableEq a] : DecidableEq (Except e a) := fun x y =>
  match x, y with
  | .ok u, .ok v =>
    if h : u = v then .isTrue (by rw [h]) else .isFalse (by intro hc; cases hc; exact h rfl)
  | .error u, .error v =>
    if h : u = v then .isTrue (by rw [h]) else .isFalse (by intro hc; cases hc; exact h rfl)
  | .ok _, .error _ => .isFalse (by intro hc; cases hc)
  | .error _, .ok _ => .isFalse (by intro hc; cases hc)

/-- A fallback slot of the TypeScript `FallbackOptions<T>` interface:
`undefined` (absent), explicitly `null`, or a value of type `T`. -/
inductive Slot (T : Type) where
  | absent : Slot T
  | null : Slot T
  | val : T → Slot T
deriving DecidableEq, Repr

/-- The JavaScript `x == null` test on a slot: true for `undefined` and `null`. -/
def Slot.isNullish {T : Type} : Slot T → Bool
  | .absent => true
  | .null => true
  | .val _ => false

/-- `FallbackOptions<T>` from the source: four optional slots keyed by the
cross product of negation and emptiness. -/
structure FallbackOptions (T : Type) where
  enabled : Slot T := .absent
  disabled : Slot T := .absent
  enabledEmpty : Slot T := .absent
  disabledEmpty : Slot T := .absent
deriving DecidableEq, Repr

/-- `ArgumentError`: an Errlop subclass whose `exitCode` is fixed at `22` and
whose `code` is fixed at `"EINVAL"` by its class definition. -/
structure ArgumentError where
  message : List Char
  exitCode : Nat := 22
  code : List Char := "EINVAL".toList
deriving DecidableEq, Repr

/-- `new ArgumentError(message)`: the constructor only supplies the message;
`exitCode` and `code` take their class-level defaults. -/
def ArgumentError.ofMessage (m : List Char) : ArgumentError :=
  { message := m }

/-- The classified-token record: the fields of the `Argument` class. -/
structure Argument where
  arg : List Char
  key : List Char
  value : Option (List Char)
  flag : Bool
  inverted : Bool
deriving DecidableEq, Repr

/-- Values considered true when parsing a boolean (`Argument.truthy`). -/
def truthy : List (List Char) :=
  ["true".toList, "1".toList, "yes".toList, "y".toList, "on".toList]

/-- Values considered false when parsing a boolean (`Argument.falsey`). -/
def falsey : List (List Char) :=
  ["false".toList, "0".toList, "no".toList, "n".toList, "off".toList]

/-- Split a character list at the first `=` (the `arg.indexOf('=')` /
`substring` logic of the constructor): returns the part before the first
`=` and, if an `=` exists, the part after it. -/
def splitFirstEq : List Char → List Char × Option (List Char)
  | [] => ([], none)
  | c :: cs =>
    if c = '=' then ([], some cs)
    else
      let p := splitFirstEq cs
      (c :: p.1, p.2)

/-- The `Argument` constructor: classify one raw token.
`if (arg === '--')` gives the sentinel; `else if (arg.startsWith('--'))`
gives a flag, splitting at the first `=` and stripping a `no-` negation
prefix from the key; otherwise the token is positional. -/
def classify (arg : List Char) : Argument :=
  if arg = "--".toList then
    { arg := arg, key := "--".toList, value := none, flag := false, inverted := false }
  else if arg.take 2 = "--".toList then
    let p := splitFirstEq (arg.drop 2)
    if p.1.take 3 = "no-".toList then
      { arg := arg, key := p.1.drop 3, value := p.2, flag := true, inverted := true }
    else
      { arg := arg, key := p.1, value := p.2, flag := true, inverted := false }
  else
    { arg := arg, key := [], value := some arg, flag := false, inverted := false }

/-- `Argument.fallback(error, {enabled, disabled, enabledEmpty, disabledEmpty})`:
select the slot for the token's (inverted, empty) case, throwing the supplied
error when the selected slot is nullish, and return a non-empty value
verbatim.  Success carries either a slot payload (`Sum.inl`) or the token's
own string value (`Sum.inr`), reflecting the union type of the source. -/
def Argument.fallback {T : Type} (a : Argument) (err : List Char)
    (opts : FallbackOptions T) : Except ArgumentError (T ⊕ List Char) :=
  match a.value with
  | none =>
    if a.inverted then
      match opts.disabled with
      | .val t => .ok (Sum.inl t)
      | _ => .error (ArgumentError.ofMessage err)
    else
      match opts.enabled with
      | .val t => .ok (Sum.inl t)
      | _ => .error (ArgumentError.ofMessage err)
  | some v =>
    if v = [] then
      if a.inverted then
        match opts.enabledEmpty with
        | .val t => .ok (Sum.inl t)
        | _ => .error (ArgumentError.ofMessage err)
      else
        match opts.disabledEmpty with
        | .val t => .ok (Sum.inl t)
        | _ => .error (ArgumentError.ofMessage err)
    else .ok (Sum.inr v)

/-- The error message built by `Argument.string`. -/
def stringErrMsg (a : Argument) : List Char :=
  "Argument ".toList ++ a.arg ++ " must have a string value, e.g. ".toList ++
    (if a.flag then "--".toList ++ a.key ++ "=string".toList else "<string>".toList)

/-- `Argument.string(opts)`: fallback resolution with the string error text. -/
def Argument.string {T : Type} (a : Argument) (opts : FallbackOptions T) :
    Except ArgumentError (T ⊕ List Char) :=
  a.fallback (stringErrMsg a) opts

/-- The error message built by `Argument.number`. -/
def numberErrMsg (a : Argument) : List Char :=
  "Argument ".toList ++ a.arg ++ " must have a number value, e.g. ".toList ++
    (if a.flag then "--".toList ++ a.key ++ "=123".toList else "123".toList)

/-- Numeric value of a list of decimal digit characters. -/
def digitsVal (ds : List Char) : Nat :=
  ds.foldl (fun n c => n * 10 + (c.toNat - 48)) 0

/-- Decimal numeral `digits`, `digits.digits`, `.digits` or `digits.`
(at least one digit overall), as accepted by the JavaScript `Number`
conversion for plain decimal literals. -/
def parseDec (s : List Char) : Option ℚ :=
  let ip := s.takeWhile Char.isDigit
  let rest := s.dropWhile Char.isDigit
  match rest with
  | [] => if ip = [] then none else some (digitsVal ip : ℚ)
  | '.' :: fp =>
    if fp.all Char.isDigit ∧ (ip ≠ [] ∨ fp ≠ []) then
      some ((digitsVal ip : ℚ) + (digitsVal fp : ℚ) / (10 : ℚ) ^ fp.length)
    else none
  | _ => none

/-- Modelled from the spec: the JavaScript builtin `Number(string)` conversion
used by `Argument.number` (the builtin is not part of this repository).
Restricted to optionally signed plain decimal numerals; every other string
converts to NaN, represented as `none`.  The empty string never reaches this
function because `Argument.number` maps it to NaN beforehand. -/
def jsNumber (s : List Char) : Option ℚ :=
  match s with
  | '-' :: r => (parseDec r).map (fun q => -q)
  | '+' :: r => parseDec r
  | _ => parseDec s

/-- `Argument.number(opts)`: resolve via `fallback` with the number error
text; a resolved empty string is not-a-number, a resolved string is converted
with `Number`, and a numeric slot payload passes through `Number` unchanged
(`Number` is the identity on numbers and a rational is never NaN); NaN
throws the number error. -/
def Argument.number (a : Argument) (opts : FallbackOptions ℚ) :
    Except ArgumentError ℚ :=
  match a.fallback (numberErrMsg a) opts with
  | .error e => .error e
  | .ok (Sum.inl q) => .ok q
  | .ok (Sum.inr s) =>
    match (if s = [] then none else jsNumber s) with
    | some q => .ok q
    | none => .error (ArgumentError.ofMessage (numberErrMsg a))

/-- The error message built by `Argument.boolean`. -/
def booleanErrMsg (a : Argument) : List Char :=
  "Argument ".toList ++ a.arg ++ " must have a boolean value, e.g. ".toList ++
    (if a.flag then
      "--".toList ++ a.key ++ " or --no-".toList ++ a.key ++
        " or --".toList ++ a.key ++ "=yes".toList
     else "yes".toList)

/-- `Argument.boolean()`: a null or empty value yields `!inverted`; otherwise
the value is compared against the truthy and falsey vocabularies, negation
flipping the result; any other value throws the boolean error.  No fallback
policy is consulted. -/
def Argument.boolean (a : Argument) : Except ArgumentError Bool :=
  match a.value with
  | none => .ok (!a.inverted)
  | some v =>
    if v = [] then .ok (!a.inverted)
    else if v ∈ truthy then .ok (if a.inverted then false else true)
    else if v ∈ falsey then .ok (if a.inverted then true else false)
    else .error (ArgumentError.ofMessage (booleanErrMsg a))

/-- Modelled from the spec: `error.toString()` for an `ArgumentError`
(Errlop is an external dependency, not part of this repository).  Per the
JavaScript `Error` contract the string leads with the error name, so it is
never empty. -/
def errToString (e : ArgumentError) : List Char :=
  "Error: ".toList ++ e.message

/-- `Argument.exit(help, error)`: the process-exit adapter, modelled as the
exit code it terminates with.  An error whose `exitCode` is 22 (or a missing
or stringless error) prints the help text; in that branch a non-empty error
string whose message differs from the help text exits 22, otherwise the exit
code is 0.  Any other error exits with its own exit code. -/
def Argument.exit (help : List Char) (error : Option ArgumentError) : Nat :=
  match error with
  | none => 0
  | some e =>
    let s := errToString e
    if e.exitCode = 22 ∨ s = [] then
      if s ≠ [] ∧ e.message ≠ help then 22 else 0
    else e.exitCode

/-- Resolution of a single fallback slot as the spec's table describes it:
the slot's value when present, otherwise failure with the supplied message. -/
def specResolveSlot {T : Type} (s : Slot T) (err : List Char) :
    Except ArgumentError (T ⊕ List Char) :=
  match s with
  | .val t => .ok (Sum.inl t)
  | _ => .error (ArgumentError.ofMessage err)

/-- The fallback-resolution table exactly as the spec states it, keyed by
(value, inverted): null selects `enabled`/`disabled`, empty string selects
`disabledEmpty`/`enabledEmpty` (crossed), and a non-empty value is returned
verbatim with the policy ignored. -/
def specFallbackTable {T : Type} (a : Argument) (err : List Char)
    (opts : FallbackOptions T) : Except ArgumentError (T ⊕ List Char) :=
  match a.value, a.inverted with
  | none, false => specResolveSlot opts.enabled err
  | none, true => specResolveSlot opts.disabled err
  | some v, false => if v = [] then specResolveSlot opts.disabledEmpty err else .ok (Sum.inr v)
  | some v, true => if v = [] then specResolveSlot opts.enabledEmpty err else .ok (Sum.inr v)

/-- The spec's example policy {enabled: A, disabled: B, enabledEmpty: C,
disabledEmpty: D}. -/
def demoPolicy : FallbackOptions (List Char) :=
  { enabled := .val "A".toList, disabled := .val "B".toList,
    enabledEmpty := .val "C".toList, disabledEmpty := .val "D".toList }

/-- `needle` occurs contiguously inside `msg`. -/
def msgContains (needle msg : List Char) : Prop :=
  ∃ pre post, msg = pre ++ needle ++ post

/-- Replace an explicit `null` slot by an absent one. -/
def Slot.denull {T : Type} : Slot T → Slot T
  | .null => .absent
  | s => s

/-- Replace every explicit `null` slot of a policy by an absent one. -/
def FallbackOptions.denull {T : Type} (o : FallbackOptions T) : FallbackOptions T :=
  { enabled := o.enabled.denull, disabled := o.disabled.denull,
    enabledEmpty := o.enabledEmpty.denull, disabledEmpty := o.disabledEmpty.denull }

/-- The policy slot that fallback resolution consults for a token:
none when the token carries a non-empty value (no slot is consulted). -/
def selectedSlot {T : Type} (a : Argument) (o : FallbackOptions T) : Option (Slot T) :=
  match a.value with
  | none => some (if a.inverted then o.disabled else o.enabled)
  | some v =>
    if v = [] then some (if a.inverted then o.enabledEmpty else o.disabledEmpty)
    else none

/-- A positional-argument record: not a flag and an empty key. -/
def IsPositionalTok (a : Argument) : Prop := a.flag = false ∧ a.key = []

/-- A flag record. -/
def IsFlagTok (a : Argument) : Prop := a.flag = true

/-- The stop-parsing sentinel record: key `--` without the flag bit. -/
def IsSentinelTok (a : Argument) : Prop := a.flag = false ∧ a.key = "--".toList

theorem splitFirstEq_snd_none (l : List Char) (h : (splitFirstEq l).2 = none) :
    (splitFirstEq l).1 = l ∧ '=' ∉ l := by
  induction l with
  | nil => exact ⟨rfl, by simp⟩
  | cons c cs ih =>
    by_cases hc : c = '='
    · simp [splitFirstEq, hc] at h
    · simp only [splitFirstEq, if_neg hc] at h ⊢
      obtain ⟨h1, h2⟩ := ih h
      refine ⟨by rw [h1], ?_⟩
      simp only [List.mem_cons, not_or]
      exact ⟨fun hco => hc hco.symm, h2⟩

theorem splitFirstEq_snd_some (l : List Char) (v : List Char)
    (h : (splitFirstEq l).2 = some v) :
    l = (splitFirstEq l).1 ++ '=' :: v ∧ '=' ∉ (splitFirstEq l).1 := by
  induction l with
  | nil => simp [splitFirstEq] at h
  | cons c cs ih =>
    by_cases hc : c = '='
    · simp only [splitFirstEq, if_pos hc] at h ⊢
      cases h
      subst hc
      simp
    · simp only [splitFirstEq, if_neg hc] at h ⊢
      obtain ⟨h1, h2⟩ := ih h
      refine ⟨by rw [List.cons_append, ← h1], ?_⟩
      simp only [List.mem_cons, not_or]
      exact ⟨fun hco => hc hco.symm, h2⟩

theorem contains_boolean_phrase (a : Argument) :
    msgContains "must have a boolean value".toList (booleanErrMsg a) := by
  refine ⟨"Argument ".toList ++ a.arg ++ " ".toList,
    ", e.g. ".toList ++
      (if a.flag then
        "--".toList ++ a.key ++ " or --no-".toList ++ a.key ++
          " or --".toList ++ a.key ++ "=yes".toList
       else "yes".toList), ?_⟩
  have h : " must have a boolean value, e.g. ".toList =
      " ".toList ++ "must have a boolean value".toList ++ ", e.g. ".toList := by decide
  simp [booleanErrMsg, h, List.append_assoc]

theorem contains_number_phrase (a : Argument) :
    msgContains "must have a number value".toList (numberErrMsg a) := by
  refine ⟨"Argument ".toList ++ a.arg ++ " ".toList,
    ", e.g. ".toList ++
      (if a.flag then "--".toList ++ a.key ++ "=123".toList else "123".toList), ?_⟩
  have h : " must have a number value, e.g. ".toList =
      " ".toList ++ "must have a number value".toList ++ ", e.g. ".toList := by decide
  simp [numberErrMsg, h, List.append_assoc]

/-- C1: for every classified token and every fallback policy, fallback
resolution follows exactly the spec's table — null selects `enabled`
(`disabled` when inverted), empty string selects `disabledEmpty`
(`enabledEmpty` when inverted), each failing when the slot is absent, and a
non-empty value is returned verbatim with the policy ignored; witnessed on
the spec's example policy {A, B, C, D} through `classify` and `string`. -/
theorem fallback_follows_spec_table :
    (∀ (T : Type) (a : Argument) (err : List Char) (opts : FallbackOptions T),
      a.fallback err opts = specFallbackTable a err opts) ∧
    ((classify "--x".toList).string demoPolicy = .ok (Sum.inl "A".toList) ∧
     (classify "--no-x".toList).string demoPolicy = .ok (Sum.inl "B".toList) ∧
     (classify "--x=".toList).string demoPolicy = .ok (Sum.inl "D".toList) ∧
     (classify "--no-x=".toList).string demoPolicy = .ok (Sum.inl "C".toList) ∧
     (classify "--x=val".toList).string demoPolicy = .ok (Sum.inr "val".toList)) := by
  constructor
  · intro T a err opts
    rcases opts with ⟨en, dis, enE, disE⟩
    rcases a with ⟨arg, key, value, flag, inverted⟩
    rcases value with _ | v
    · cases inverted
      · cases en <;> rfl
      · cases dis <;> rfl
    · by_cases hv : v = []
      · subst hv
        cases inverted
        · cases disE <;> rfl
        · cases enE <;> rfl
      · cases inverted <;>
          simp [Argument.fallback, specFallbackTable, hv]
  · exact ⟨by decide, by decide, by decide, by decide, by decide⟩

/-- C1 witness: the table instantiated on a concrete token and policy. -/
theorem fallback_follows_spec_table_witness :
    (classify "--no-q".toList).fallback "m".toList demoPolicy =
      specFallbackTable (classify "--no-q".toList) "m".toList demoPolicy :=
  fallback_follows_spec_table.1 (List Char) (classify "--no-q".toList) "m".toList demoPolicy

/-- C2: boolean coercion takes no fallback policy (its type consults none):
a null or empty value yields the negation of `inverted`; a value in the
case-sensitive truthy vocabulary {true, 1, yes, y, on} yields true unless
inverted; a value in the falsey vocabulary {false, 0, no, n, off} yields
false unless inverted; any other value raises the boolean error, whose
message contains "must have a boolean value". -/
theorem boolean_coercion_spec :
    (truthy = ["true".toList, "1".toList, "yes".toList, "y".toList, "on".toList] ∧
     falsey = ["false".toList, "0".toList, "no".toList, "n".toList, "off".toList]) ∧
    ∀ a : Argument,
      ((a.value = none ∨ a.value = some []) → a.boolean = .ok (!a.inverted)) ∧
      (∀ v, a.value = some v → v ∈ truthy → a.boolean = .ok (!a.inverted)) ∧
      (∀ v, a.value = some v → v ∈ falsey → a.boolean = .ok a.inverted) ∧
      (∀ v, a.value = some v → v ∉ truthy → v ∉ falsey → v ≠ [] →
        a.boolean = .error (ArgumentError.ofMessage (booleanErrMsg a)) ∧
        msgContains "must have a boolean value".toList (booleanErrMsg a)) := by
  refine ⟨⟨rfl, rfl⟩, fun a => ⟨?_, ?_, ?_, ?_⟩⟩
  · rintro (h | h) <;> simp [Argument.boolean, h]
  · intro v hv hm
    have hne : v ≠ [] := by
      rcases (by simpa [truthy] using hm : _) with rfl | rfl | rfl | rfl | rfl <;> decide
    simp only [Argument.boolean, hv, if_neg hne, if_pos hm]
    cases a.inverted <;> rfl
  · intro v hv hm
    have hne : v ≠ [] := by
      rcases (by simpa [falsey] using hm : _) with rfl | rfl | rfl | rfl | rfl <;> decide
    have hnt : v ∉ truthy := by
      rcases (by simpa [falsey] using hm : _) with rfl | rfl | rfl | rfl | rfl <;> decide
    simp only [Argument.boolean, hv, if_neg hne, if_neg hnt, if_pos hm]
    cases a.inverted <;> rfl
  · intro v hv hnt hnf hne
    refine ⟨?_, contains_boolean_phrase a⟩
    simp only [Argument.boolean, hv, if_neg hne, if_neg hnt, if_neg hnf]

/-- C2 witness: the error case instantiated on `--x=maybe`. -/
theorem boolean_coercion_spec_witness :
    (classify "--x=maybe".toList).boolean =
      .error (ArgumentError.ofMessage (booleanErrMsg (classify "--x=maybe".toList))) ∧
    msgContains "must have a boolean value".toList
      (booleanErrMsg (classify "--x=maybe".toList)) :=
  (boolean_coercion_spec.2 (classify "--x=maybe".toList)).2.2.2 "maybe".toList
    (by decide) (by decide) (by decide) (by decide)

/-- C3: every raw string starting with the two-dash token other than the bare
sentinel classifies as a flag, splitting only at the first `=` of the part
after the two dashes (no `=` gives a null value, a trailing `=` gives the
empty value, later `=` characters stay in the value), the remaining key
losing a leading `no-` with `inverted` set; in particular `--no-` gives an
empty key with `flag` and `inverted` both true, and `--string=a=b` keeps
`a=b` as its value. -/
theorem flag_classification_first_eq_split :
    (∀ arg : List Char, arg.take 2 = "--".toList → arg ≠ "--".toList →
      (classify arg).flag = true ∧ (classify arg).arg = arg ∧
      ∃ k, ('=' ∉ k) ∧
        ((classify arg).value = none ∧ arg.drop 2 = k ∨
         ∃ v, (classify arg).value = some v ∧ arg.drop 2 = k ++ '=' :: v) ∧
        (if k.take 3 = "no-".toList
         then (classify arg).key = k.drop 3 ∧ (classify arg).inverted = true
         else (classify arg).key = k ∧ (classify arg).inverted = false)) ∧
    classify "--no-".toList =
      { arg := "--no-".toList, key := [], value := none, flag := true, inverted := true } ∧
    (classify "--string=a=b".toList).value = some "a=b".toList ∧
    (classify "--flag=".toList).value = some [] ∧
    (classify "--flag".toList).value = none := by
  constructor
  · intro arg h2 h1
    have hcl : classify arg =
        (if (splitFirstEq (arg.drop 2)).1.take 3 = "no-".toList then
          { arg := arg, key := (splitFirstEq (arg.drop 2)).1.drop 3,
            value := (splitFirstEq (arg.drop 2)).2, flag := true, inverted := true }
         else
          { arg := arg, key := (splitFirstEq (arg.drop 2)).1,
            value := (splitFirstEq (arg.drop 2)).2, flag := true, inverted := false }) := by
      simp only [classify, if_neg h1, if_pos h2]
    refine ⟨by rw [hcl]; split <;> rfl, by rw [hcl]; split <;> rfl,
      (splitFirstEq (arg.drop 2)).1, ?_, ?_, ?_⟩
    · cases hp : (splitFirstEq (arg.drop 2)).2 with
      | none =>
        have hs := splitFirstEq_snd_none (arg.drop 2) hp
        rw [hs.1]; exact hs.2
      | some v => exact (splitFirstEq_snd_some (arg.drop 2) v hp).2
    · have hval : (classify arg).value = (splitFirstEq (arg.drop 2)).2 := by
        rw [hcl]; split <;> rfl
      cases hp : (splitFirstEq (arg.drop 2)).2 with
      | none =>
        exact Or.inl ⟨by rw [hval, hp], ((splitFirstEq_snd_none (arg.drop 2) hp).1).symm⟩
      | some v =>
        exact Or.inr ⟨v, by rw [hval, hp], (splitFirstEq_snd_some (arg.drop 2) v hp).1⟩
    · by_cases h3 : (splitFirstEq (arg.drop 2)).1.take 3 = "no-".toList
      · rw [if_pos h3, hcl, if_pos h3]; exact ⟨rfl, rfl⟩
      · rw [if_neg h3, hcl, if_neg h3]; exact ⟨rfl, rfl⟩
  · exact ⟨by decide, by decide, by decide, by decide⟩

/-- C3 witness: the flag discriminator instantiated on `--no-x=5`. -/
theorem flag_classification_first_eq_split_witness :
    (classify "--no-x=5".toList).flag = true :=
  (flag_classification_first_eq_split.1 "--no-x=5".toList (by decide) (by decide)).1

/-- C4: classifying the exact string `--` yields the sentinel record; the pair
key `--` with the flag bit off identifies `--` uniquely; tokens without the
two-dash start always have an empty key; and `----` reaches key `--` only
with the flag bit on. -/
theorem sentinel_unique :
    classify "--".toList =
      { arg := "--".toList, key := "--".toList, value := none,
        flag := false, inverted := false } ∧
    (∀ arg : List Char, (classify arg).key = "--".toList →
      (classify arg).flag = false → arg = "--".toList) ∧
    (∀ arg : List Char, arg.take 2 ≠ "--".toList → (classify arg).key = []) ∧
    ((classify "----".toList).key = "--".toList ∧ (classify "----".toList).flag = true) := by
  refine ⟨by decide, ?_, ?_, by decide⟩
  · intro arg hk hf
    by_cases h1 : arg = "--".toList
    · exact h1
    · exfalso
      by_cases h2 : arg.take 2 = "--".toList
      · have hft : (classify arg).flag = true := by
          simp only [classify, if_neg h1, if_pos h2]
          split <;> rfl
        rw [hft] at hf
        exact Bool.noConfusion hf
      · have hke : (classify arg).key = [] := by
          simp only [classify, if_neg h1, if_neg h2]
        rw [hke] at hk
        exact (by decide : ([] : List Char) ≠ "--".toList) hk
  · intro arg h
    have h1 : arg ≠ "--".toList := by
      intro hc; subst hc; exact h (by decide)
    simp only [classify, if_neg h1, if_neg h]

/-- C4 witness: a token without the two-dash start has an empty key. -/
theorem sentinel_unique_witness : (classify "x".toList).key = [] :=
  sentinel_unique.2.2.1 "x".toList (by decide)

/-- C5: every raw string that does not start with the two-dash token — the
empty string included — classifies as a positional record: not a flag, not
inverted, empty key, and the raw string itself as the value. -/
theorem positional_classification :
    (∀ arg : List Char, arg.take 2 ≠ "--".toList →
      classify arg =
        { arg := arg, key := [], value := some arg, flag := false, inverted := false }) ∧
    classify [] = { arg := [], key := [], value := some [], flag := false, inverted := false } := by
  constructor
  · intro arg h
    have h1 : arg ≠ "--".toList := by
      intro hc; subst hc; exact h (by decide)
    simp only [classify, if_neg h1, if_neg h]
  · decide

/-- C5 witness: the positional rule instantiated on a plain word. -/
theorem positional_classification_witness :
    classify "hello".toList =
      { arg := "hello".toList, key := [], value := some "hello".toList,
        flag := false, inverted := false } :=
  positional_classification.1 "hello".toList (by decide)

/-- C6: number coercion resolves through the fallback table first (propagating
its failure), returns numeric slot payloads as-is, treats an empty resolved
string as not-a-number, and otherwise converts the resolved string, raising
the "must have a number value" error exactly when conversion yields
not-a-number; `--n=42` gives 42 and `--n=abc` raises. -/
theorem number_coercion_resolution :
    (∀ (a : Argument) (opts : FallbackOptions ℚ),
      (∀ e, a.fallback (numberErrMsg a) opts = .error e → a.number opts = .error e) ∧
      (∀ q, a.fallback (numberErrMsg a) opts = .ok (Sum.inl q) → a.number opts = .ok q) ∧
      (∀ s, a.fallback (numberErrMsg a) opts = .ok (Sum.inr s) →
        (∀ q, (if s = [] then none else jsNumber s) = some q → a.number opts = .ok q) ∧
        ((if s = [] then none else jsNumber s) = (none : Option ℚ) →
          a.number opts = .error (ArgumentError.ofMessage (numberErrMsg a)) ∧
          msgContains "must have a number value".toList (numberErrMsg a)))) ∧
    (classify "--n=42".toList).number {} = .ok 42 ∧
    (classify "--n=abc".toList).number {} =
      .error (ArgumentError.ofMessage
        "Argument --n=abc must have a number value, e.g. --n=123".toList) := by
  refine ⟨fun a opts => ⟨?_, ?_, ?_⟩, by decide, by decide⟩
  · intro e h
    simp [Argument.number, h]
  · intro q h
    simp [Argument.number, h]
  · intro s h
    constructor
    · intro q hq
      simp [Argument.number, h, hq]
    · intro hq
      exact ⟨by simp [Argument.number, h, hq], contains_number_phrase a⟩

/-- C6 witness: the conversion branch instantiated on `--n=7`. -/
theorem number_coercion_resolution_witness :
    (classify "--n=7".toList).number {} = .ok 7 :=
  ((number_coercion_resolution.1 (classify "--n=7".toList) {}).2.2 "7".toList
    (by decide)).1 7 (by decide)

theorem fallback_error_eq {T : Type} (a : Argument) (err : List Char)
    (opts : FallbackOptions T) (e : ArgumentError)
    (h : a.fallback err opts = .error e) : e = ArgumentError.ofMessage err := by
  unfold Argument.fallback at h
  repeat' split at h
  all_goals first
    | exact Except.noConfusion h
    | (injection h with he; exact he.symm)

theorem boolean_error_eq (a : Argument) (e : ArgumentError)
    (h : a.boolean = .error e) : e = ArgumentError.ofMessage (booleanErrMsg a) := by
  unfold Argument.boolean at h
  repeat' split at h
  all_goals first
    | exact Except.noConfusion h
    | (injection h with he; exact he.symm)

theorem number_error_eq (a : Argument) (opts : FallbackOptions ℚ) (e : ArgumentError)
    (h : a.number opts = .error e) : e = ArgumentError.ofMessage (numberErrMsg a) := by
  cases hf : a.fallback (numberErrMsg a) opts with
  | error e0 =>
    simp only [Argument.number, hf] at h
    injection h with he
    subst he
    exact fallback_error_eq a (numberErrMsg a) opts e0 hf
  | ok val =>
    cases val with
    | inl q => simp [Argument.number, hf] at h
    | inr s =>
      simp only [Argument.number, hf] at h
      cases hj : (if s = [] then none else jsNumber s) with
      | none =>
        rw [hj] at h
        injection h with he
        exact he.symm
      | some q =>
        rw [hj] at h
        simp at h

/-- C8: every failure raised by fallback resolution or by the number, boolean
or string coercions is an error carrying exit code 22 and code EINVAL, and a
fallback failure's message is exactly the caller-supplied required message
(the string coercion supplies its own generated message). -/
theorem errors_carry_einval :
    (∀ (T : Type) (a : Argument) (err : List Char) (opts : FallbackOptions T)
        (e : ArgumentError),
      a.fallback err opts = .error e →
      e.message = err ∧ e.exitCode = 22 ∧ e.code = "EINVAL".toList) ∧
    (∀ (a : Argument) (e : ArgumentError), a.boolean = .error e →
      e.exitCode = 22 ∧ e.code = "EINVAL".toList) ∧
    (∀ (a : Argument) (opts : FallbackOptions ℚ) (e : ArgumentError),
      a.number opts = .error e → e.exitCode = 22 ∧ e.code = "EINVAL".toList) ∧
    (∀ (T : Type) (a : Argument) (opts : FallbackOptions T) (e : ArgumentError),
      a.string opts = .error e →
      e.message = stringErrMsg a ∧ e.exitCode = 22 ∧ e.code = "EINVAL".toList) := by
  refine ⟨?_, ?_, ?_, ?_⟩
  · intro T a err opts e h
    obtain rfl := fallback_error_eq a err opts e h
    exact ⟨rfl, rfl, rfl⟩
  · intro a e h
    obtain rfl := boolean_error_eq a e h
    exact ⟨rfl, rfl⟩
  · intro a opts e h
    obtain rfl := number_error_eq a opts e h
    exact ⟨rfl, rfl⟩
  · intro T a opts e h
    obtain rfl := fallback_error_eq a (stringErrMsg a) opts e h
    exact ⟨rfl, rfl, rfl⟩

/-- C8 witness: a fallback failure on `--x` with an empty policy carries the
supplied message, exit code 22 and code EINVAL. -/
theorem errors_carry_einval_witness :
    (ArgumentError.ofMessage "m".toList).message = "m".toList ∧
    (ArgumentError.ofMessage "m".toList).exitCode = 22 ∧
    (ArgumentError.ofMessage "m".toList).code = "EINVAL".toList :=
  errors_carry_einval.1 (List Char) (classify "--x".toList) "m".toList {}
    (ArgumentError.ofMessage "m".toList) (by decide)

/-- C7: classification is total and well formed — every token is exactly one
of positional, flag or sentinel, negation only appears on flags, and the raw
string is preserved — while the resolver can fail: resolving `--x` as a
string against an empty policy raises the required-value error. -/
theorem classify_total_resolver_can_fail :
    (∀ arg : List Char,
      (IsPositionalTok (classify arg) ∧ ¬IsFlagTok (classify arg) ∧
        ¬IsSentinelTok (classify arg)) ∨
      (IsFlagTok (classify arg) ∧ ¬IsPositionalTok (classify arg) ∧
        ¬IsSentinelTok (classify arg)) ∨
      (IsSentinelTok (classify arg) ∧ ¬IsPositionalTok (classify arg) ∧
        ¬IsFlagTok (classify arg))) ∧
    (∀ arg : List Char, (classify arg).inverted = true → (classify arg).flag = true) ∧
    (∀ arg : List Char, (classify arg).arg = arg) ∧
    (classify "--x".toList).string ({} : FallbackOptions ℚ) =
      .error (ArgumentError.ofMessage
        "Argument --x must have a string value, e.g. --x=string".toList) := by
  refine ⟨?_, ?_, ?_, by decide⟩
  · intro arg
    by_cases h1 : arg = "--".toList
    · subst h1
      right; right
      unfold IsSentinelTok IsPositionalTok IsFlagTok
      exact ⟨by decide, by decide, by decide⟩
    · by_cases h2 : arg.take 2 = "--".toList
      · have hft : (classify arg).flag = true := by
          simp only [classify, if_neg h1, if_pos h2]
          split <;> rfl
        refine Or.inr (Or.inl ⟨hft, ?_, ?_⟩)
        · intro hpos
          exact Bool.noConfusion (hpos.1.symm.trans hft)
        · intro hsent
          exact Bool.noConfusion (hsent.1.symm.trans hft)
      · have hcl : classify arg =
            { arg := arg, key := [], value := some arg, flag := false, inverted := false } := by
          simp only [classify, if_neg h1, if_neg h2]
        refine Or.inl ⟨⟨?_, ?_⟩, ?_, ?_⟩
        · rw [hcl]
        · rw [hcl]
        · intro hf
          rw [hcl] at hf
          exact Bool.noConfusion hf
        · intro hsent
          rw [hcl] at hsent
          exact (by decide : ([] : List Char) ≠ "--".toList) hsent.2
  · intro arg hinv
    by_cases h1 : arg = "--".toList
    · subst h1
      exact absurd hinv (by decide)
    · by_cases h2 : arg.take 2 = "--".toList
      · simp only [classify, if_neg h1, if_pos h2]
        split <;> rfl
      · have : (classify arg).inverted = false := by
          simp only [classify, if_neg h1, if_neg h2]
        rw [this] at hinv
        exact Bool.noConfusion hinv
  · intro arg
    by_cases h1 : arg = "--".toList
    · subst h1; rfl
    · by_cases h2 : arg.take 2 = "--".toList
      · simp only [classify, if_neg h1, if_pos h2]
        split <;> rfl
      · simp only [classify, if_neg h1, if_neg h2]

/-- C7 witness: negation implies the flag bit, on `--no-b`. -/
theorem classify_total_resolver_can_fail_witness :
    (classify "--no-b".toList).flag = true :=
  classify_total_resolver_can_fail.2.1 "--no-b".toList (by decide)

/-- C9: the process-exit adapter, given an argument error (exit code 22),
terminates with code 0 when the error message equals the help text verbatim
and with code 22 when it differs. -/
theorem exit_code_help_vs_error :
    ∀ (help : List Char) (e : ArgumentError), e.exitCode = 22 →
      Argument.exit help (some e) = if e.message = help then 0 else 22 := by
  intro help e h22
  have hs : errToString e ≠ [] := by simp [errToString]
  by_cases hm : e.message = help <;>
    simp [Argument.exit, h22, hm, hs]

/-- C9 witness: a help-requested error (message equal to the help text)
exits 0; evaluated on concrete text. -/
theorem exit_code_help_vs_error_witness :
    Argument.exit "usage".toList (some (ArgumentError.ofMessage "usage".toList)) = 0 := by
  have h := exit_code_help_vs_error "usage".toList
    (ArgumentError.ofMessage "usage".toList) rfl
  simpa using h

/-- C10: a fallback slot explicitly set to null behaves identically to an
absent slot — resolution is unchanged when null slots are erased, a selected
null slot raises the supplied error, and every successful resolution is a
real value (the verbatim non-empty token value or a configured slot
payload), never null. -/
theorem null_slot_behaves_as_absent :
    (∀ (T : Type) (a : Argument) (err : List Char) (opts : FallbackOptions T),
      a.fallback err opts = a.fallback err opts.denull) ∧
    (∀ (T : Type) (a : Argument) (err : List Char) (opts : FallbackOptions T),
      selectedSlot a opts = some Slot.null →
      a.fallback err opts = .error (ArgumentError.ofMessage err)) ∧
    (∀ (T : Type) (a : Argument) (err : List Char) (opts : FallbackOptions T)
        (r : T ⊕ List Char), a.fallback err opts = .ok r →
      (∃ v, r = Sum.inr v ∧ a.value = some v ∧ v ≠ []) ∨
      (∃ t, r = Sum.inl t ∧ (opts.enabled = .val t ∨ opts.disabled = .val t ∨
        opts.enabledEmpty = .val t ∨ opts.disabledEmpty = .val t))) := by
  refine ⟨?_, ?_, ?_⟩
  · intro T a err opts
    rcases opts with ⟨en, dis, enE, disE⟩
    rcases a with ⟨arg, key, value, flag, inverted⟩
    rcases value with _ | v
    · cases inverted
      · cases en <;> rfl
      · cases dis <;> rfl
    · by_cases hv : v = []
      · subst hv
        cases inverted
        · cases disE <;> rfl
        · cases enE <;> rfl
      · simp [Argument.fallback, hv]
  · intro T a err opts hsel
    rcases opts with ⟨en, dis, enE, disE⟩
    rcases a with ⟨arg, key, value, flag, inverted⟩
    rcases value with _ | v
    · cases inverted
      · simp only [selectedSlot] at hsel
        injection hsel with hsel
        simp at hsel
        simp [Argument.fallback, hsel]
      · simp only [selectedSlot] at hsel
        injection hsel with hsel
        simp at hsel
        simp [Argument.fallback, hsel]
    · by_cases hv : v = []
      · subst hv
        cases inverted
        · simp only [selectedSlot, if_pos rfl] at hsel
          injection hsel with hsel
          simp at hsel
          simp [Argument.fallback, hsel]
        · simp only [selectedSlot, if_pos rfl] at hsel
          injection hsel with hsel
          simp at hsel
          simp [Argument.fallback, hsel]
      · simp [selectedSlot, hv] at hsel
  · intro T a err opts r h
    rcases opts with ⟨en, dis, enE, disE⟩
    rcases a with ⟨arg, key, value, flag, inverted⟩
    rcases value with _ | v
    · cases inverted
      · cases en with
        | val t =>
          simp only [Argument.fallback] at h
          injection h with h
          exact Or.inr ⟨t, h.symm, Or.inl rfl⟩
        | absent => simp [Argument.fallback] at h
        | null => simp [Argument.fallback] at h
      · cases dis with
        | val t =>
          simp only [Argument.fallback] at h
          injection h with h
          exact Or.inr ⟨t, h.symm, Or.inr (Or.inl rfl)⟩
        | absent => simp [Argument.fallback] at h
        | null => simp [Argument.fallback] at h
    · by_cases hv : v = []
      · subst hv
        cases inverted
        · cases disE with
          | val t =>
            simp only [Argument.fallback] at h
            injection h with h
            exact Or.inr ⟨t, h.symm, Or.inr (Or.inr (Or.inr rfl))⟩
          | absent => simp [Argument.fallback] at h
          | null => simp [Argument.fallback] at h
        · cases enE with
          | val t =>
            simp only [Argument.fallback] at h
            injection h with h
            exact Or.inr ⟨t, h.symm, Or.inr (Or.inr (Or.inl rfl))⟩
          | absent => simp [Argument.fallback] at h
          | null => simp [Argument.fallback] at h
      · simp only [Argument.fallback, if_neg hv] at h
        injection h with h
        exact Or.inl ⟨v, h.symm, rfl, hv⟩

/-- C10 witness: an explicit null `enabled` slot raises the supplied message
on a bare `--x`. -/
theorem null_slot_behaves_as_absent_witness :
    (classify "--x".toList).fallback "m".toList
      ({ enabled := Slot.null } : FallbackOptions ℚ) =
      .error (ArgumentError.ofMessage "m".toList) :=
  null_slot_behaves_as_absent.2.1 ℚ (classify "--x".toList) "m".toList
    { enabled := Slot.null } (by decide)
